import Mathlib

/-!
Verification of the genre-store service (`server/index.js`).

The server keeps an in-memory list of genre records, a monotonically
increasing id counter, and exposes CRUD operations over it.  We embed the
store and every route handler as pure Lean functions over an explicit
state.  Timestamps (`new Date().toISOString()`) are modelled as natural
numbers supplied by a monotone clock: each operation receives the current
time `now`, and reachability of states requires `now` to be at least the
state's recorded clock.  ISO-8601 strings of a monotone clock compare the
same way the numbers do, so nothing is lost for the properties below.

JavaScript-specific behaviours are embedded faithfully:
`parseInt` (whitespace skip, sign, `0x` prefix, longest digit prefix,
NaN as `none`), string truthiness (`""` is falsy), `x || y` fallbacks,
`trim`, `toLowerCase`, and the `sort` comparator that never returns 0.
-/

/-- A genre record.  `updatedAt` is optional because the seed records are
created without one; it is set by `create` and by every successful
update. -/
structure Genre where
  id : Int
  name : String
  description : String
  image : String
  createdAt : Nat
  updatedAt : Option Nat
deriving DecidableEq, Repr

/-- Server state: the genre list and the id counter `nextId`.
`clock` and `assigned` are history instrumentation (not program
variables): `clock` records the time of the latest step, and `assigned`
records every id ever seeded or handed out by `getNextId`, so that
uniqueness of ids over the whole process life is statable. -/
structure St where
  genres : List Genre
  nextId : Int
  clock : Nat
  assigned : List Int
deriving DecidableEq, Repr

/-- JavaScript `parseInt` digit lookup for a given radix (10 or 16). -/
def digitVal (base : Nat) (c : Char) : Option Nat :=
  if c.isDigit then
    some (c.toNat - 48)
  else if base = 16 && 'a' ≤ c && c ≤ 'f' then
    some (c.toNat - 87)
  else if base = 16 && 'A' ≤ c && c ≤ 'F' then
    some (c.toNat - 55)
  else none

/-- Longest prefix of digits, accumulated; `none` when no digit was read
(JavaScript `NaN`). -/
def takeDigits (base : Nat) : List Char → Option Nat → Option Nat
  | [], acc => acc
  | c :: cs, acc =>
    match digitVal base c with
    | some d => takeDigits base cs (some (acc.getD 0 * base + d))
    | none => acc

/-- JavaScript `parseInt(s)` with no radix argument: skip leading
whitespace, optional sign, `0x`/`0X` selects radix 16, then the longest
run of digits; `none` models `NaN`. -/
def jsParseInt (s : String) : Option Int :=
  let cs := s.data.dropWhile Char.isWhitespace
  let signed : Int × List Char :=
    match cs with
    | '-' :: rest => (-1, rest)
    | '+' :: rest => (1, rest)
    | _ => (1, cs)
  let based : Nat × List Char :=
    match signed.2 with
    | '0' :: 'x' :: rest => (16, rest)
    | '0' :: 'X' :: rest => (16, rest)
    | _ => (10, signed.2)
  match takeDigits based.1 based.2 none with
  | some n => some (signed.1 * (n : Int))
  | none => none

/-- JavaScript `x || y` on an optional string `x`: the fallback `y` is
used when the field is absent or the empty string (falsy). -/
def jsOrDefault (x : Option String) (y : String) : String :=
  match x with
  | some s => if s ≠ "" then s else y
  | none => y

/-- An optional string is truthy when present and non-empty. -/
def jsTruthy (x : Option String) : Bool :=
  match x with
  | some s => s ≠ ""
  | none => false

/-- JavaScript `toLowerCase` on the ASCII strings of this service,
written over the character list so that proofs can evaluate it. -/
def jsToLower (s : String) : String :=
  String.mk (s.data.map Char.toLower)

/-- Strip leading and trailing whitespace from a character list. -/
def trimChars (cs : List Char) : List Char :=
  ((cs.dropWhile Char.isWhitespace).reverse.dropWhile
    Char.isWhitespace).reverse

/-- JavaScript `trim`, over the character list of the string. -/
def jsTrim (s : String) : String :=
  String.mk (trimChars s.data)

/-- Lexicographic `<` on strings by character code, as JavaScript
compares the ASCII values occurring here. -/
def ltChars : List Char → List Char → Bool
  | [], [] => false
  | [], _ :: _ => true
  | _ :: _, [] => false
  | a :: xs, b :: ys =>
    if a < b then true else if b < a then false else ltChars xs ys

/-- `name.toLowerCase().replace(/\s+/g, '')`: lowercase, all whitespace
removed. -/
def lowerNoWs (s : String) : String :=
  String.mk ((jsToLower s).data.filter (fun c => !c.isWhitespace))

/-- The default image path used by `create` when `image` is falsy. -/
def defaultImage (name : String) : String :=
  "/images/" ++ lowerNoWs name ++ ".jpg"

/-- `validateGenre` from the source: collects an error string for a
missing/too-short name and for a missing/too-short description.  The
fields are strings here; the empty string is the falsy case. -/
def validateGenre (name description : String) : List String :=
  (if name = "" || (jsTrim name).length < 2 then
    ["Name must be at least 2 characters long"]
  else []) ++
  (if description = "" || (jsTrim description).length < 5 then
    ["Description must be at least 5 characters long"]
  else [])

/-- `genres.find(g => g.id === parseInt(id))`: `NaN` (`none`) matches
nothing. -/
def findGenreById (idStr : String) (gs : List Genre) : Option Genre :=
  gs.find? (fun g => jsParseInt idStr = some g.id)

/-- Remove the first element satisfying `p`, returning it and the rest
(`findIndex` + `splice(i, 1)`). -/
def removeFirst (p : Genre → Bool) : List Genre → Option (Genre × List Genre)
  | [] => none
  | g :: gs =>
    if p g then some (g, gs)
    else (removeFirst p gs).map (fun r => (r.1, g :: r.2))

/-- Replace the first element satisfying `p` by `f` applied to it
(`genres[genreIndex] = updatedGenre`). -/
def updateFirst (p : Genre → Bool) (f : Genre → Genre) : List Genre → List Genre
  | [] => []
  | g :: gs => if p g then f g :: gs else g :: updateFirst p f gs

/-- The errors a mutating route can answer with. -/
inductive CrudErr where
  | notFound
  | validation (errors : List String)
  | conflict
deriving DecidableEq, Repr

deriving instance DecidableEq for Except

/-- Body of `POST /api/genres` and `PUT /api/genres/:id`:
name and description are required strings, image is optional. -/
structure CreateBody where
  name : String
  description : String
  image : Option String
deriving DecidableEq, Repr

/-- Body of `PATCH /api/genres/:id`: every field independently
present-or-absent. -/
structure PatchBody where
  name : Option String
  description : Option String
  image : Option String
deriving DecidableEq, Repr

/-- `POST /api/genres`: validate, reject case-insensitive duplicate
names, then append a fresh record with id `nextId` and both timestamps
set to `now`.  On error the state is returned unchanged. -/
def createGenre (body : CreateBody) (now : Nat) (st : St) :
    Except CrudErr Genre × St :=
  let errors := validateGenre body.name body.description
  if errors ≠ [] then (.error (.validation errors), st)
  else if st.genres.any
      (fun g => jsToLower g.name = jsToLower (jsTrim body.name)) then
    (.error .conflict, st)
  else
    let g : Genre :=
      { id := st.nextId
        name := jsTrim body.name
        description := jsTrim body.description
        image := jsOrDefault body.image (defaultImage body.name)
        createdAt := now
        updatedAt := some now }
    (.ok g,
      { st with
        genres := st.genres ++ [g]
        nextId := st.nextId + 1
        assigned := st.assigned ++ [g.id] })

/-- `PUT /api/genres/:id`: 404 when the id resolves to no record, then
the same validation as create, a duplicate check excluding the record
itself, and a full overwrite keeping `id`, `createdAt`, and falling back
to the old image when the supplied one is falsy. -/
def putGenre (idStr : String) (body : CreateBody) (now : Nat) (st : St) :
    Except CrudErr Genre × St :=
  match findGenreById idStr st.genres with
  | none => (.error .notFound, st)
  | some old =>
    let errors := validateGenre body.name body.description
    if errors ≠ [] then (.error (.validation errors), st)
    else if st.genres.any (fun g =>
        g.id ≠ old.id && jsToLower g.name = jsToLower (jsTrim body.name)) then
      (.error .conflict, st)
    else
      let upd : Genre :=
        { old with
          name := jsTrim body.name
          description := jsTrim body.description
          image := jsOrDefault body.image old.image
          updatedAt := some now }
      (.ok upd,
        { st with
          genres := updateFirst
            (fun g => jsParseInt idStr = some g.id) (fun _ => upd)
            st.genres })

/-- `PATCH /api/genres/:id`.  Present name/description fields are
trimmed.  Validation runs only when the trimmed name or description is
truthy (non-empty), and inside it a falsy update falls back to the old
value (`updates.name || genres[i].name`).  The duplicate check runs only
for a truthy name.  The merge spreads every present field — including
ones that trimmed to the empty string — over the old record. -/
def patchGenre (idStr : String) (body : PatchBody) (now : Nat) (st : St) :
    Except CrudErr Genre × St :=
  match findGenreById idStr st.genres with
  | none => (.error .notFound, st)
  | some old =>
    let uName := body.name.map jsTrim
    let uDesc := body.description.map jsTrim
    if jsTruthy uName || jsTruthy uDesc then
      let testName := jsOrDefault uName old.name
      let testDesc := jsOrDefault uDesc old.description
      let errors := validateGenre testName testDesc
      if errors ≠ [] then (.error (.validation errors), st)
      else if jsTruthy uName && st.genres.any (fun g =>
          g.id ≠ old.id &&
            jsToLower g.name = jsToLower (uName.getD "")) then
        (.error .conflict, st)
      else
        let upd : Genre :=
          { old with
            name := uName.getD old.name
            description := uDesc.getD old.description
            image := body.image.getD old.image
            updatedAt := some now }
        (.ok upd,
          { st with
            genres := updateFirst
              (fun g => jsParseInt idStr = some g.id) (fun _ => upd)
              st.genres })
    else if jsTruthy uName && st.genres.any (fun g =>
        g.id ≠ old.id && jsToLower g.name = jsToLower (uName.getD "")) then
      (.error .conflict, st)
    else
      let upd : Genre :=
        { old with
          name := uName.getD old.name
          description := uDesc.getD old.description
          image := body.image.getD old.image
          updatedAt := some now }
      (.ok upd,
        { st with
          genres := updateFirst
            (fun g => jsParseInt idStr = some g.id) (fun _ => upd)
            st.genres })

/-- `DELETE /api/genres/:id`: remove and return the record, 404 when
absent. -/
def deleteGenre (idStr : String) (st : St) : Except CrudErr Genre × St :=
  match removeFirst (fun g => jsParseInt idStr = some g.id) st.genres with
  | none => (.error .notFound, st)
  | some r => (.ok r.1, { st with genres := r.2 })

/-- Result payload of the bulk delete route. -/
structure BulkResult where
  deleted : List Genre
  notFound : List String
deriving DecidableEq, Repr

/-- The `ids.forEach` loop of `DELETE /api/genres`: for each id in
order, remove the first matching record into `deleted`, or record the id
in `notFound`. -/
def bulkAux : List String → List Genre → BulkResult × List Genre
  | [], gs => (⟨[], []⟩, gs)
  | i :: rest, gs =>
    match removeFirst (fun g => jsParseInt i = some g.id) gs with
    | some r =>
      let t := bulkAux rest r.2
      (⟨r.1 :: t.1.deleted, t.1.notFound⟩, t.2)
    | none =>
      let t := bulkAux rest gs
      (⟨t.1.deleted, i :: t.1.notFound⟩, t.2)

/-- `DELETE /api/genres`: 400 when `ids` is empty (the non-array case
is outside the embedding, which types `ids` as a list), else run the
loop and always answer 200. -/
def bulkDeleteGenres (ids : List String) (st : St) :
    Except CrudErr BulkResult × St :=
  if ids = [] then (.error (.validation []), st)
  else
    let r := bulkAux ids st.genres
    (.ok r.1, { st with genres := r.2 })

/-- `GET /api/genres/:id`: 404 when `findGenreById` misses. -/
def getGenre (idStr : String) (st : St) : Except CrudErr Genre :=
  match findGenreById idStr st.genres with
  | none => .error .notFound
  | some g => .ok g

/-- The value `a[sort]` can take in the comparator: a string field, the
numeric id, or `undefined` (constructor `missing`) for anything else. -/
inductive FieldVal where
  | str (s : String)
  | num (n : Int)
  | missing
deriving DecidableEq, Repr

/-- Field access `a[sort]`.  Timestamps are numeric in the model (their
ISO strings order identically); an absent `updatedAt` and unknown keys
are `undefined`. -/
def getField (g : Genre) : String → FieldVal
  | "id" => .num g.id
  | "name" => .str g.name
  | "description" => .str g.description
  | "image" => .str g.image
  | "createdAt" => .num (g.createdAt : Int)
  | "updatedAt" =>
    match g.updatedAt with
    | some u => .num (u : Int)
    | none => .missing
  | _ => .missing

/-- JavaScript `>` on the comparator operands: strings lexicographically
(by code unit, which agrees with Lean's order on these ASCII fields),
numbers numerically, anything involving `undefined` is false. -/
def jsGt : FieldVal → FieldVal → Bool
  | .str x, .str y => ltChars y.data x.data
  | .num x, .num y => decide (y < x)
  | _, _ => false

/-- The sort comparator: lowercase both values when the first is a
string, then return 1 or -1 from `>` in the direction given by `order`.
It never returns 0. -/
def sortComparator (key ord : String) (a b : Genre) : Int :=
  let av := getField a key
  let bv := getField b key
  let lowered : FieldVal × FieldVal :=
    match av, bv with
    | .str x, .str y => (.str (jsToLower x), .str (jsToLower y))
    | x, y => (x, y)
  if ord = "desc" then
    if jsGt lowered.2 lowered.1 then 1 else -1
  else
    if jsGt lowered.1 lowered.2 then 1 else -1

/-- Insert into a sorted list: before the first element the comparator
does not place strictly after. -/
def insertLe (le : Genre → Genre → Bool) (g : Genre) :
    List Genre → List Genre
  | [] => [g]
  | h :: t => if le g h then g :: h :: t else h :: insertLe le g t

/-- Sorting for the list route.  JavaScript leaves the algorithm
unspecified; on comparators that never return 0 and are consistent (as
on records with pairwise distinct keys) every comparison sort agrees, so
insertion sort is a faithful embedding there. -/
def sortGenres (le : Genre → Genre → Bool) : List Genre → List Genre
  | [] => []
  | h :: t => insertLe le h (sortGenres le t)

/-- Does `hay` start with `needle`? -/
def leadsWith : List Char → List Char → Bool
  | [], _ => true
  | _ :: _, [] => false
  | a :: xs, b :: ys => a = b && leadsWith xs ys

/-- JavaScript `hay.includes(needle)`: contiguous substring test. -/
def containsChars (needle : List Char) : List Char → Bool
  | [] => leadsWith needle []
  | h :: t => leadsWith needle (h :: t) || containsChars needle t

/-- Case-insensitive substring test used by the search filter. -/
def containsLower (hay needle : String) : Bool :=
  containsChars (jsToLower needle).data (jsToLower hay).data

/-- `GET /api/genres`: optional case-insensitive search over name and
description, then optional sort by `sortComparator`; the store itself is
not mutated. -/
def listGenres (search sortKey : Option String) (ord : String)
    (gs : List Genre) : List Genre :=
  let r :=
    match search with
    | some q =>
      gs.filter (fun g =>
        containsLower g.name q || containsLower g.description q)
    | none => gs
  match sortKey with
  | some k => sortGenres (fun a b => sortComparator k ord a b ≤ 0) r
  | none => r

/-- The seed collection loaded at process start, stamped with the boot
time `t0`; the seed literals carry `createdAt` but no `updatedAt`. -/
def seedGenres (t0 : Nat) : List Genre :=
  [ { id := 1, name := "Action",
      description := "Fast-paced, stunt-heavy films",
      image := "/images/action.jpg", createdAt := t0, updatedAt := none },
    { id := 2, name := "Comedy",
      description := "Funny films to make you laugh",
      image := "/images/comedy.jpg", createdAt := t0, updatedAt := none },
    { id := 3, name := "Drama",
      description := "Emotion-driven storytelling",
      image := "/images/drama.jpg", createdAt := t0, updatedAt := none },
    { id := 4, name := "Sci-Fi",
      description := "Futuristic concepts and tech",
      image := "/images/scifi.jpg", createdAt := t0, updatedAt := none } ]

/-- Initial server state: the seed set and `nextId = 5`. -/
def initSt (t0 : Nat) : St :=
  { genres := seedGenres t0
    nextId := 5
    clock := t0
    assigned := [1, 2, 3, 4] }

/-- The mutating requests a client can issue. -/
inductive Op where
  | create (body : CreateBody)
  | put (idStr : String) (body : CreateBody)
  | patch (idStr : String) (body : PatchBody)
  | deleteOne (idStr : String)
  | bulkDelete (ids : List String)
deriving DecidableEq, Repr

/-- State transition of one request arriving at time `now`; the
instrumentation clock advances to `now`. -/
def applyOp (op : Op) (now : Nat) (st : St) : St :=
  let st' :=
    match op with
    | .create body => (createGenre body now st).2
    | .put idStr body => (putGenre idStr body now st).2
    | .patch idStr body => (patchGenre idStr body now st).2
    | .deleteOne idStr => (deleteGenre idStr st).2
    | .bulkDelete ids => (bulkDeleteGenres ids st).2
  { st' with clock := now }

/-- Reachable server states: the seed state at any boot time, closed
under requests whose arrival time is no earlier than the previous
step (the wall clock is monotone). -/
inductive Reachable : St → Prop where
  | init (t0 : Nat) : Reachable (initSt t0)
  | step {s : St} (op : Op) (now : Nat) :
      Reachable s → s.clock ≤ now → Reachable (applyOp op now s)

/-- The store invariant: every live id was assigned; every assigned id is
below the counter; every record's `createdAt` is no later than the state
clock; a present `updatedAt` is no earlier than `createdAt`; and live ids
are pairwise distinct. -/
def StInv (s : St) : Prop :=
  (∀ g ∈ s.genres, g.id ∈ s.assigned) ∧
  (∀ i ∈ s.assigned, i < s.nextId) ∧
  (∀ g ∈ s.genres, g.createdAt ≤ s.clock) ∧
  (∀ g ∈ s.genres, ∀ u, g.updatedAt = some u → g.createdAt ≤ u) ∧
  (s.genres.map Genre.id).Nodup

/-! ### Helper lemmas on the list primitives -/

theorem removeFirst_eq_some {p : Genre → Bool} :
    ∀ {l : List Genre} {d : Genre} {rest : List Genre},
      removeFirst p l = some (d, rest) →
      ∃ l1 l2, l = l1 ++ d :: l2 ∧ rest = l1 ++ l2 ∧
        (∀ g ∈ l1, p g = false) ∧ p d = true := by
  intro l
  induction l with
  | nil => intro d rest h; simp [removeFirst] at h
  | cons g gs ih =>
    intro d rest h
    by_cases hpg : p g
    · refine ⟨[], gs, ?_⟩
      simp only [removeFirst, hpg, if_pos, Option.some.injEq, Prod.mk.injEq] at h
      simp [← h.1, ← h.2, hpg]
    · simp only [removeFirst, hpg, if_neg, Option.map_eq_some', Bool.false_eq_true,
        not_false_iff] at h
      obtain ⟨⟨d0, rest0⟩, hr0, hmk⟩ := h
      rw [Prod.mk.injEq] at hmk
      obtain ⟨hd0, hrest0⟩ := hmk
      subst hd0
      subst hrest0
      obtain ⟨l1, l2, hl, hrest, hl1, hd⟩ := ih hr0
      refine ⟨g :: l1, l2, ?_, ?_, ?_, hd⟩
      · simp [hl]
      · simp [hrest]
      · intro x hx
        rcases List.mem_cons.mp hx with h1 | h1
        · subst h1; simpa using hpg
        · exact hl1 x h1

theorem updateFirst_of_find {p : Genre → Bool} {f : Genre → Genre} :
    ∀ {l : List Genre} {old : Genre}, l.find? p = some old →
      ∃ l1 l2, l = l1 ++ old :: l2 ∧
        updateFirst p f l = l1 ++ f old :: l2 ∧
        (∀ g ∈ l1, p g = false) ∧ p old = true := by
  intro l
  induction l with
  | nil => intro old h; simp at h
  | cons g gs ih =>
    intro old h
    by_cases hpg : p g
    · rw [List.find?_cons_of_pos _ hpg] at h
      simp only [Option.some.injEq] at h
      subst h
      exact ⟨[], gs, by simp, by simp [updateFirst, hpg], by simp, hpg⟩
    · rw [List.find?_cons_of_neg _ hpg] at h
      obtain ⟨l1, l2, hl, hu, hl1, hp⟩ := ih h
      refine ⟨g :: l1, l2, by simp [hl], ?_, ?_, hp⟩
      · simp [updateFirst, hpg, hu]
      · intro x hx
        rcases List.mem_cons.mp hx with h1 | h1
        · subst h1; simpa using hpg
        · exact hl1 x h1

theorem updateFirst_of_find_none {p : Genre → Bool} {f : Genre → Genre} :
    ∀ {l : List Genre}, l.find? p = none → updateFirst p f l = l := by
  intro l
  induction l with
  | nil => intro _; rfl
  | cons g gs ih =>
    intro h
    rw [List.find?_eq_none] at h
    have hpg : p g = false := by
      have := h g (by simp)
      simpa using this
    rw [List.find?_eq_none] at ih
    simp [updateFirst, hpg, ih (fun x hx => h x (by simp [hx]))]

theorem removeFirst_eq_none {p : Genre → Bool} :
    ∀ {l : List Genre}, removeFirst p l = none → ∀ g ∈ l, p g = false := by
  intro l
  induction l with
  | nil => intro _ g hg; simp at hg
  | cons g gs ih =>
    intro h x hx
    by_cases hpg : p g
    · simp [removeFirst, hpg] at h
    · simp only [removeFirst, hpg, if_neg, Option.map_eq_none',
        Bool.false_eq_true, not_false_iff] at h
      rcases List.mem_cons.mp hx with h1 | h1
      · subst h1; simpa using hpg
      · exact ih h x h1

theorem removeFirst_rest_sublist {p : Genre → Bool} {d : Genre}
    {rest l : List Genre} (h : removeFirst p l = some (d, rest)) :
    rest.Sublist l := by
  obtain ⟨l1, l2, hl, hrest, -, -⟩ := removeFirst_eq_some h
  rw [hl, hrest]
  exact List.Sublist.append_left (List.sublist_cons_self d l2) l1

theorem bulkAux_sublist :
    ∀ (ids : List String) (gs : List Genre), ((bulkAux ids gs).2).Sublist gs := by
  intro ids
  induction ids with
  | nil => intro gs; simp [bulkAux]
  | cons i rest ih =>
    intro gs
    cases h : removeFirst (fun g => jsParseInt i = some g.id) gs with
    | none => simpa [bulkAux, h] using ih gs
    | some r =>
      obtain ⟨d, r2⟩ := r
      simpa [bulkAux, h] using (ih r2).trans (removeFirst_rest_sublist h)

theorem bulkAux_frame :
    ∀ (ids : List String) (gs : List Genre) (g : Genre), g ∈ gs →
      (∀ i ∈ ids, ¬jsParseInt i = some g.id) → g ∈ (bulkAux ids gs).2 := by
  intro ids
  induction ids with
  | nil => intro gs g hg _; simpa [bulkAux] using hg
  | cons i rest ih =>
    intro gs g hg hno
    cases h : removeFirst (fun x => jsParseInt i = some x.id) gs with
    | none =>
      simpa [bulkAux, h] using
        ih gs g hg (fun j hj => hno j (List.mem_cons_of_mem _ hj))
    | some r =>
      obtain ⟨d, r2⟩ := r
      obtain ⟨l1, l2, hl, hrest, -, hpd⟩ := removeFirst_eq_some h
      have hgd : g ≠ d := by
        intro hgd
        subst hgd
        exact hno i (List.mem_cons_self i rest) (of_decide_eq_true hpd)
      have hg2 : g ∈ r2 := by
        rw [hrest]
        rw [hl] at hg
        rcases List.mem_append.mp hg with h1 | h1
        · exact List.mem_append.mpr (Or.inl h1)
        · rcases List.mem_cons.mp h1 with h2 | h2
          · exact absurd h2 hgd
          · exact List.mem_append.mpr (Or.inr h2)
      simpa [bulkAux, h] using
        ih r2 g hg2 (fun j hj => hno j (List.mem_cons_of_mem _ hj))

theorem bulkAux_covered :
    ∀ (ids : List String) (gs : List Genre), ∀ i ∈ ids,
      i ∈ (bulkAux ids gs).1.notFound ∨
        ∃ g ∈ (bulkAux ids gs).1.deleted, jsParseInt i = some g.id := by
  intro ids
  induction ids with
  | nil => intro gs i hi; simp at hi
  | cons i' rest ih =>
    intro gs i hi
    cases h : removeFirst (fun x => jsParseInt i' = some x.id) gs with
    | none =>
      rcases List.mem_cons.mp hi with h1 | h1
      · subst h1
        left
        simp [bulkAux, h]
      · rcases ih gs i h1 with h2 | ⟨g, hg, hpg⟩
        · left; simp [bulkAux, h, h2]
        · right; exact ⟨g, by simp [bulkAux, h, hg], hpg⟩
    | some r =>
      obtain ⟨d, r2⟩ := r
      obtain ⟨-, -, -, -, -, hpd⟩ := removeFirst_eq_some h
      rcases List.mem_cons.mp hi with h1 | h1
      · subst h1
        right
        exact ⟨d, by simp [bulkAux, h], of_decide_eq_true hpd⟩
      · rcases ih r2 i h1 with h2 | ⟨g, hg, hpg⟩
        · left; simp [bulkAux, h, h2]
        · right; exact ⟨g, by simp [bulkAux, h, hg], hpg⟩

theorem bulkAux_deleted_ids :
    ∀ (ids : List String) (gs : List Genre),
      ((bulkAux ids gs).1.deleted.map Genre.id).Sublist
        (ids.filterMap jsParseInt) := by
  intro ids
  induction ids with
  | nil => intro gs; simp [bulkAux]
  | cons i rest ih =>
    intro gs
    cases h : removeFirst (fun x => jsParseInt i = some x.id) gs with
    | none =>
      simp only [bulkAux, h]
      cases hp : jsParseInt i with
      | none => simpa [List.filterMap_cons, hp] using ih gs
      | some n =>
        simp only [List.filterMap_cons, hp]
        exact (ih gs).cons n
    | some r =>
      obtain ⟨d, r2⟩ := r
      obtain ⟨-, -, -, -, -, hpd⟩ := removeFirst_eq_some h
      have hp : jsParseInt i = some d.id := of_decide_eq_true hpd
      simp only [bulkAux, h, List.map_cons]
      simp only [List.filterMap_cons, hp]
      exact (ih r2).cons₂ d.id

theorem not_mem_of_nodup_ids {d : Genre} {l1 l2 : List Genre}
    (h : ((l1 ++ d :: l2).map Genre.id).Nodup) : d ∉ l1 ++ l2 := by
  rw [List.map_append, List.map_cons] at h
  intro hmem
  rcases List.mem_append.mp hmem with h1 | h1
  · exact (List.disjoint_of_nodup_append h)
      (List.mem_map_of_mem Genre.id h1) (List.mem_cons_self d.id _)
  · have h2 : (d.id :: l2.map Genre.id).Nodup := h.of_append_right
    exact (List.nodup_cons.mp h2).1 (List.mem_map_of_mem Genre.id h1)

theorem bulkAux_hit :
    ∀ (ids : List String) (gs : List Genre), (gs.map Genre.id).Nodup →
      ∀ i ∈ ids, ∀ g ∈ gs, jsParseInt i = some g.id →
        g ∈ (bulkAux ids gs).1.deleted ∧ g ∉ (bulkAux ids gs).2 := by
  intro ids
  induction ids with
  | nil => intro gs _ i hi; simp at hi
  | cons i' rest ih =>
    intro gs hnd i hi g hg hpg
    cases h : removeFirst (fun x => jsParseInt i' = some x.id) gs with
    | none =>
      have hirest : i ∈ rest := by
        rcases List.mem_cons.mp hi with h1 | h1
        · subst h1
          have := removeFirst_eq_none h g hg
          simp [hpg] at this
        · exact h1
      have := ih gs hnd i hirest g hg hpg
      exact ⟨by simp [bulkAux, h, this.1], by simpa [bulkAux, h] using this.2⟩
    | some r =>
      obtain ⟨d, r2⟩ := r
      obtain ⟨l1, l2, hl, hrest, -, hpd⟩ := removeFirst_eq_some h
      have hdgs : d ∈ gs := by rw [hl]; simp
      have hdnot : d ∉ r2 := by
        rw [hrest]
        rw [hl] at hnd
        exact not_mem_of_nodup_ids hnd
      have hfinal_sub := bulkAux_sublist rest r2
      by_cases hgd : g = d
      · subst hgd
        constructor
        · simp [bulkAux, h]
        · intro hmem
          simp only [bulkAux, h] at hmem
          exact hdnot (hfinal_sub.subset hmem)
      · have hg2 : g ∈ r2 := by
          rw [hrest]
          rw [hl] at hg
          rcases List.mem_append.mp hg with h1 | h1
          · exact List.mem_append.mpr (Or.inl h1)
          · rcases List.mem_cons.mp h1 with h2 | h2
            · exact absurd h2 hgd
            · exact List.mem_append.mpr (Or.inr h2)
        have hnd2 : (r2.map Genre.id).Nodup :=
          hnd.sublist ((removeFirst_rest_sublist h).map Genre.id)
        have hirest : i ∈ rest := by
          rcases List.mem_cons.mp hi with h1 | h1
          · subst h1
            have hd : jsParseInt i = some d.id := of_decide_eq_true hpd
            have hid : g.id = d.id := by
              have := hpg.symm.trans hd
              simpa using this
            exact absurd (List.inj_on_of_nodup_map hnd hg hdgs hid) hgd
          · exact h1
        have := ih r2 hnd2 i hirest g hg2 hpg
        exact ⟨by simp [bulkAux, h, this.1], by simpa [bulkAux, h] using this.2⟩

/-- C6: for every non-empty `ids` list, bulk delete never fails: it
answers 200; the resulting store is an order-preserving subset of the
old one; every genre whose id is hit by none of the ids survives
unchanged; every requested id is either reported in `notFound` or has a
matching record in `deleted`; the deleted records appear in the order of
the requesting ids; and (under the store's id-uniqueness) every id
present in the store is removed and its record collected in
`deleted`. -/
theorem c6_bulk_delete_total (ids : List String) (st : St) (hne : ids ≠ []) :
    ∃ br st', bulkDeleteGenres ids st = (.ok br, st') ∧
      st'.genres.Sublist st.genres ∧
      (∀ g ∈ st.genres,
        (∀ i ∈ ids, ¬jsParseInt i = some g.id) → g ∈ st'.genres) ∧
      (∀ i ∈ ids,
        i ∈ br.notFound ∨ ∃ g ∈ br.deleted, jsParseInt i = some g.id) ∧
      (br.deleted.map Genre.id).Sublist (ids.filterMap jsParseInt) ∧
      ((st.genres.map Genre.id).Nodup →
        ∀ i ∈ ids, ∀ g ∈ st.genres, jsParseInt i = some g.id →
          g ∈ br.deleted ∧ g ∉ st'.genres) := by
  refine ⟨(bulkAux ids st.genres).1,
    { st with genres := (bulkAux ids st.genres).2 }, ?_, ?_, ?_, ?_, ?_, ?_⟩
  · simp [bulkDeleteGenres, hne]
  · exact bulkAux_sublist ids st.genres
  · exact fun g hg hno => bulkAux_frame ids st.genres g hg hno
  · exact fun i hi => bulkAux_covered ids st.genres i hi
  · exact bulkAux_deleted_ids ids st.genres
  · exact fun hnd i hi g hg hpg => bulkAux_hit ids st.genres hnd i hi g hg hpg

theorem c6_bulk_delete_total_witness :
    (["2", "99"] : List String) ≠ [] ∧
      (∃ br st', bulkDeleteGenres ["2", "99"] (initSt 0) = (.ok br, st') ∧
        st'.genres.Sublist (initSt 0).genres ∧
        (∀ g ∈ (initSt 0).genres,
          (∀ i ∈ (["2", "99"] : List String), ¬jsParseInt i = some g.id) →
            g ∈ st'.genres) ∧
        (∀ i ∈ (["2", "99"] : List String),
          i ∈ br.notFound ∨ ∃ g ∈ br.deleted, jsParseInt i = some g.id) ∧
        (br.deleted.map Genre.id).Sublist
          ((["2", "99"] : List String).filterMap jsParseInt) ∧
        (((initSt 0).genres.map Genre.id).Nodup →
          ∀ i ∈ (["2", "99"] : List String), ∀ g ∈ (initSt 0).genres,
            jsParseInt i = some g.id → g ∈ br.deleted ∧ g ∉ st'.genres)) :=
  ⟨by decide, c6_bulk_delete_total ["2", "99"] (initSt 0) (by decide)⟩

/-! ### Shape of each mutating operation -/

theorem createGenre_cases (body : CreateBody) (now : Nat) (st : St) :
    (createGenre body now st).2 = st ∨
    ∃ gNew, (createGenre body now st).1 = Except.ok gNew ∧
      (createGenre body now st).2.genres = st.genres ++ [gNew] ∧
      (createGenre body now st).2.nextId = st.nextId + 1 ∧
      (createGenre body now st).2.assigned = st.assigned ++ [gNew.id] ∧
      gNew.id = st.nextId ∧ gNew.createdAt = now ∧ gNew.updatedAt = some now := by
  by_cases h1 : validateGenre body.name body.description = []
  · by_cases h2 :
      st.genres.any (fun g => jsToLower g.name = jsToLower (jsTrim body.name)) = true
    · left; simp [createGenre, h1, h2]
    · right
      have hres : createGenre body now st =
          (Except.ok (Genre.mk st.nextId (jsTrim body.name) (jsTrim body.description)
              (jsOrDefault body.image (defaultImage body.name)) now (some now)),
            St.mk (st.genres ++ [Genre.mk st.nextId (jsTrim body.name)
                (jsTrim body.description)
                (jsOrDefault body.image (defaultImage body.name)) now (some now)])
              (st.nextId + 1) st.clock
              (st.assigned ++ [st.nextId])) := by
        simp [createGenre, h1, h2]
      refine ⟨_, by rw [hres], by rw [hres], by rw [hres], by rw [hres],
        rfl, rfl, rfl⟩
  · left; simp [createGenre, h1]

theorem putGenre_cases (idStr : String) (body : CreateBody) (now : Nat)
    (st : St) :
    (putGenre idStr body now st).2 = st ∨
    ∃ old upd, findGenreById idStr st.genres = some old ∧
      (putGenre idStr body now st).1 = Except.ok upd ∧
      (putGenre idStr body now st).2.genres =
        updateFirst (fun g => jsParseInt idStr = some g.id)
          (fun _ => upd) st.genres ∧
      (putGenre idStr body now st).2.nextId = st.nextId ∧
      (putGenre idStr body now st).2.assigned = st.assigned ∧
      upd.id = old.id ∧ upd.createdAt = old.createdAt ∧
      upd.updatedAt = some now := by
  cases hf : findGenreById idStr st.genres with
  | none => left; simp [putGenre, hf]
  | some old =>
    simp only [putGenre, hf]
    split_ifs with h1 h2
    · left; rfl
    · left; rfl
    · right
      exact ⟨old, Genre.mk old.id (jsTrim body.name) (jsTrim body.description)
        (jsOrDefault body.image old.image) old.createdAt (some now),
        rfl, rfl, rfl, rfl, rfl, rfl, rfl, rfl⟩

theorem patchGenre_cases (idStr : String) (body : PatchBody) (now : Nat)
    (st : St) :
    ((patchGenre idStr body now st).2 = st ∧
      ∃ e, (patchGenre idStr body now st).1 = Except.error e) ∨
    ∃ old upd, findGenreById idStr st.genres = some old ∧
      (patchGenre idStr body now st).1 = Except.ok upd ∧
      (patchGenre idStr body now st).2.genres =
        updateFirst (fun g => jsParseInt idStr = some g.id)
          (fun _ => upd) st.genres ∧
      (patchGenre idStr body now st).2.nextId = st.nextId ∧
      (patchGenre idStr body now st).2.assigned = st.assigned ∧
      upd.id = old.id ∧
      upd.name = (body.name.map jsTrim).getD old.name ∧
      upd.description = (body.description.map jsTrim).getD old.description ∧
      upd.image = body.image.getD old.image ∧
      upd.createdAt = old.createdAt ∧
      upd.updatedAt = some now := by
  cases hf : findGenreById idStr st.genres with
  | none =>
    left
    exact ⟨by simp [patchGenre, hf], CrudErr.notFound,
      by simp [patchGenre, hf]⟩
  | some old =>
    simp only [patchGenre, hf]
    split_ifs with hT h1 h2 h3
    · left; exact ⟨rfl, _, rfl⟩
    · left; exact ⟨rfl, _, rfl⟩
    · right
      exact ⟨old, Genre.mk old.id
        ((body.name.map jsTrim).getD old.name)
        ((body.description.map jsTrim).getD old.description)
        (body.image.getD old.image) old.createdAt (some now),
        rfl, rfl, rfl, rfl, rfl, rfl, rfl, rfl, rfl, rfl, rfl⟩
    · left; exact ⟨rfl, _, rfl⟩
    · right
      exact ⟨old, Genre.mk old.id
        ((body.name.map jsTrim).getD old.name)
        ((body.description.map jsTrim).getD old.description)
        (body.image.getD old.image) old.createdAt (some now),
        rfl, rfl, rfl, rfl, rfl, rfl, rfl, rfl, rfl, rfl, rfl⟩

theorem deleteGenre_cases (idStr : String) (st : St) :
    (deleteGenre idStr st).2 = st ∨
    ((deleteGenre idStr st).2.genres.Sublist st.genres ∧
      (deleteGenre idStr st).2.nextId = st.nextId ∧
      (deleteGenre idStr st).2.assigned = st.assigned) := by
  cases h : removeFirst (fun g => jsParseInt idStr = some g.id) st.genres with
  | none => left; simp [deleteGenre, h]
  | some r =>
    obtain ⟨d, rest⟩ := r
    right
    refine ⟨?_, ?_, ?_⟩
    · simpa [deleteGenre, h] using removeFirst_rest_sublist h
    · simp [deleteGenre, h]
    · simp [deleteGenre, h]

theorem bulkDeleteGenres_snd (ids : List String) (st : St) :
    (bulkDeleteGenres ids st).2.genres.Sublist st.genres ∧
    (bulkDeleteGenres ids st).2.nextId = st.nextId ∧
    (bulkDeleteGenres ids st).2.assigned = st.assigned := by
  by_cases h : ids = []
  · subst h; simp [bulkDeleteGenres]
  · refine ⟨?_, ?_, ?_⟩
    · simpa [bulkDeleteGenres, h] using bulkAux_sublist ids st.genres
    · simp [bulkDeleteGenres, h]
    · simp [bulkDeleteGenres, h]

/-! ### The invariant is preserved by every request -/

theorem stInv_clock {s : St} {now : Nat} (h : StInv s) (hc : s.clock ≤ now) :
    StInv { s with clock := now } := by
  obtain ⟨h1, h2, h3, h4, h5⟩ := h
  exact ⟨h1, h2, fun g hg => le_trans (h3 g hg) hc, h4, h5⟩

theorem stInv_sub {s s2 : St} {now : Nat} (h : StInv s) (hc : s.clock ≤ now)
    (hg : s2.genres.Sublist s.genres) (hn : s2.nextId = s.nextId)
    (ha : s2.assigned = s.assigned) : StInv { s2 with clock := now } := by
  obtain ⟨h1, h2, h3, h4, h5⟩ := h
  refine ⟨?_, ?_, ?_, ?_, ?_⟩
  · intro g hgm
    rw [ha]
    exact h1 g (hg.subset hgm)
  · intro i hi
    rw [ha] at hi
    rw [hn]
    exact h2 i hi
  · intro g hgm
    exact le_trans (h3 g (hg.subset hgm)) hc
  · intro g hgm
    exact h4 g (hg.subset hgm)
  · exact h5.sublist (hg.map Genre.id)

theorem stInv_create {s : St} {now : Nat} {gNew : Genre} {s2 : St}
    (h : StInv s) (hc : s.clock ≤ now)
    (hg : s2.genres = s.genres ++ [gNew]) (hn : s2.nextId = s.nextId + 1)
    (ha : s2.assigned = s.assigned ++ [gNew.id]) (hid : gNew.id = s.nextId)
    (hca : gNew.createdAt = now) (hua : gNew.updatedAt = some now) :
    StInv { s2 with clock := now } := by
  obtain ⟨h1, h2, h3, h4, h5⟩ := h
  have hfresh : gNew.id ∉ s.genres.map Genre.id := by
    intro hmem
    obtain ⟨g, hgm, hgid⟩ := List.mem_map.mp hmem
    have := h2 g.id (h1 g hgm)
    rw [hgid, hid] at this
    exact lt_irrefl _ this
  refine ⟨?_, ?_, ?_, ?_, ?_⟩
  · intro g hgm
    rw [ha]
    simp only [hg, List.mem_append, List.mem_singleton] at hgm
    rcases hgm with hm | hm
    · exact List.mem_append.mpr (Or.inl (h1 g hm))
    · subst hm
      exact List.mem_append.mpr (Or.inr (by simp))
  · intro i hi
    rw [hn]
    rw [ha] at hi
    rcases List.mem_append.mp hi with hm | hm
    · exact lt_trans (h2 i hm) (by omega)
    · simp only [List.mem_singleton] at hm
      subst hm
      rw [hid]
      omega
  · intro g hgm
    simp only [hg, List.mem_append, List.mem_singleton] at hgm
    rcases hgm with hm | hm
    · exact le_trans (h3 g hm) hc
    · subst hm
      simp [hca]
  · intro g hgm u hu
    simp only [hg, List.mem_append, List.mem_singleton] at hgm
    rcases hgm with hm | hm
    · exact h4 g hm u hu
    · subst hm
      rw [hua] at hu
      simp only [Option.some.injEq] at hu
      subst hu
      simp [hca]
  · show ((s2.genres).map Genre.id).Nodup
    rw [hg, List.map_append, List.map_cons, List.map_nil]
    rw [List.nodup_append]
    refine ⟨h5, by simp, ?_⟩
    intro a haa hab
    simp only [List.mem_cons, List.not_mem_nil, or_false] at hab
    subst hab
    exact hfresh haa

theorem stInv_update {s : St} {now : Nat} {old upd : Genre}
    {p : Genre → Bool} {s2 : St} (h : StInv s) (hc : s.clock ≤ now)
    (hfind : s.genres.find? p = some old)
    (hg : s2.genres = updateFirst p (fun _ => upd) s.genres)
    (hn : s2.nextId = s.nextId) (ha : s2.assigned = s.assigned)
    (hid : upd.id = old.id) (hca : upd.createdAt = old.createdAt)
    (hua : upd.updatedAt = some now) : StInv { s2 with clock := now } := by
  obtain ⟨h1, h2, h3, h4, h5⟩ := h
  obtain ⟨l1, l2, hl, hupd_eq, -, -⟩ := updateFirst_of_find (f := fun _ => upd) hfind
  have hold : old ∈ s.genres := List.mem_of_find?_eq_some hfind
  have hsplit : s2.genres = l1 ++ upd :: l2 := by rw [hg, hupd_eq]
  have hmem_old : ∀ g ∈ s2.genres, g ∈ s.genres ∨ g = upd := by
    intro g hgm
    rw [hsplit] at hgm
    rcases List.mem_append.mp hgm with hm | hm
    · exact Or.inl (by rw [hl]; exact List.mem_append.mpr (Or.inl hm))
    · rcases List.mem_cons.mp hm with hm2 | hm2
      · exact Or.inr hm2
      · refine Or.inl ?_
        rw [hl]
        exact List.mem_append.mpr (Or.inr (List.mem_cons_of_mem _ hm2))
  refine ⟨?_, ?_, ?_, ?_, ?_⟩
  · intro g hgm
    rw [ha]
    rcases hmem_old g hgm with hm | hm
    · exact h1 g hm
    · subst hm
      rw [hid]
      exact h1 old hold
  · intro i hi
    rw [ha] at hi
    rw [hn]
    exact h2 i hi
  · intro g hgm
    rcases hmem_old g hgm with hm | hm
    · exact le_trans (h3 g hm) hc
    · subst hm
      rw [hca]
      exact le_trans (h3 old hold) hc
  · intro g hgm u hu
    rcases hmem_old g hgm with hm | hm
    · exact h4 g hm u hu
    · subst hm
      rw [hua] at hu
      simp only [Option.some.injEq] at hu
      subst hu
      rw [hca]
      exact le_trans (h3 old hold) hc
  · show ((s2.genres).map Genre.id).Nodup
    have : s2.genres.map Genre.id = s.genres.map Genre.id := by
      rw [hsplit, hl]
      simp [hid]
    rw [this]
    exact h5

theorem stInv_step (op : Op) (now : Nat) (s : St) (hInv : StInv s)
    (hclock : s.clock ≤ now) : StInv (applyOp op now s) := by
  cases op with
  | create body =>
    rcases createGenre_cases body now s with hcase | ⟨gNew, -, hg, hn, ha, hid, hca, hua⟩
    · show StInv { (createGenre body now s).2 with clock := now }
      rw [hcase]
      exact stInv_clock hInv hclock
    · exact stInv_create hInv hclock hg hn ha hid hca hua
  | put idStr body =>
    rcases putGenre_cases idStr body now s with hcase | ⟨old, upd, hf, -, hg, hn, ha, hid, hca, hua⟩
    · show StInv { (putGenre idStr body now s).2 with clock := now }
      rw [hcase]
      exact stInv_clock hInv hclock
    · exact stInv_update hInv hclock hf hg hn ha hid hca hua
  | patch idStr body =>
    rcases patchGenre_cases idStr body now s with
      ⟨hcase, -⟩ | ⟨old, upd, hf, -, hg, hn, ha, hid, -, -, -, hca, hua⟩
    · show StInv { (patchGenre idStr body now s).2 with clock := now }
      rw [hcase]
      exact stInv_clock hInv hclock
    · exact stInv_update hInv hclock hf hg hn ha hid hca hua
  | deleteOne idStr =>
    rcases deleteGenre_cases idStr s with hcase | ⟨hg, hn, ha⟩
    · show StInv { (deleteGenre idStr s).2 with clock := now }
      rw [hcase]
      exact stInv_clock hInv hclock
    · exact stInv_sub hInv hclock hg hn ha
  | bulkDelete ids =>
    obtain ⟨hg, hn, ha⟩ := bulkDeleteGenres_snd ids s
    exact stInv_sub hInv hclock hg hn ha

theorem stInv_init (t0 : Nat) : StInv (initSt t0) := by
  refine ⟨?_, ?_, ?_, ?_, ?_⟩ <;> simp [StInv, initSt, seedGenres]

theorem reachable_inv {s : St} (h : Reachable s) : StInv s := by
  induction h with
  | init t0 => exact stInv_init t0
  | step op now _ hclock ih => exact stInv_step op now _ ih hclock

theorem createGenre_ok_shape {body : CreateBody} {now : Nat} {st : St}
    {r : Genre} {st2 : St}
    (h : createGenre body now st = (Except.ok r, st2)) :
    r = Genre.mk st.nextId (jsTrim body.name) (jsTrim body.description)
      (jsOrDefault body.image (defaultImage body.name)) now (some now) ∧
    st2 = St.mk (st.genres ++ [r]) (st.nextId + 1) st.clock
      (st.assigned ++ [r.id]) ∧
    validateGenre body.name body.description = [] ∧
    st.genres.any (fun g => jsToLower g.name = jsToLower (jsTrim body.name))
      = false := by
  simp only [createGenre] at h
  split_ifs at h with h1 h2
  · simp at h
  · simp at h
  · rw [Prod.mk.injEq] at h
    obtain ⟨hr, hst⟩ := h
    have hr2 := Except.ok.inj hr
    subst hr2
    exact ⟨rfl, hst.symm, not_not.mp h1, by simpa using h2⟩

/-- C2: for every reachable state, a successful create returns a record
whose id was never seeded nor assigned before and is strictly greater
than every previously assigned id. -/
theorem c2_create_id_fresh (s : St) (hs : Reachable s) (body : CreateBody)
    (now : Nat) (r : Genre) (s2 : St)
    (h : createGenre body now s = (Except.ok r, s2)) :
    r.id ∉ s.assigned ∧ ∀ i ∈ s.assigned, i < r.id := by
  obtain ⟨h1, h2, h3, h4, h5⟩ := reachable_inv hs
  have hrid : r.id = s.nextId := by
    rw [(createGenre_ok_shape h).1]
  constructor
  · intro hmem
    have := h2 r.id hmem
    rw [hrid] at this
    exact lt_irrefl _ this
  · intro i hi
    rw [hrid]
    exact h2 i hi

theorem c2_create_id_fresh_witness :
    (Genre.mk 5 "Horror" "Scary stuff" "/images/horror.jpg" 5 (some 5)).id
        ∉ (initSt 0).assigned ∧
      ∀ i ∈ (initSt 0).assigned,
        i < (Genre.mk 5 "Horror" "Scary stuff" "/images/horror.jpg" 5
          (some 5)).id :=
  c2_create_id_fresh (initSt 0) (Reachable.init 0)
    ⟨"Horror", "Scary stuff", none⟩ 5
    (Genre.mk 5 "Horror" "Scary stuff" "/images/horror.jpg" 5 (some 5))
    (St.mk (seedGenres 0 ++
        [Genre.mk 5 "Horror" "Scary stuff" "/images/horror.jpg" 5 (some 5)])
      6 0 [1, 2, 3, 4, 5]) (by decide)

/-- C3 counterexample: the initial state is reachable, and its first
seed record carries no `updatedAt` at all, so "updatedAt is always
present" fails on the seed records. -/
theorem c3_counterexample_seed_updatedAt :
    Reachable (initSt 0) ∧
    Genre.mk 1 "Action" "Fast-paced, stunt-heavy films"
      "/images/action.jpg" 0 none ∈ (initSt 0).genres ∧
    (Genre.mk 1 "Action" "Fast-paced, stunt-heavy films"
      "/images/action.jpg" 0 none).updatedAt = none :=
  ⟨Reachable.init 0, by decide, rfl⟩

/-- C3 (amended): in every reachable state, whenever a genre's
`updatedAt` is present it is at least its `createdAt`; any request
arriving no earlier than the state clock leaves the `createdAt` of every
surviving id unchanged; and records produced by a successful create
always carry `updatedAt = now`.  (The seed records lack `updatedAt`
until their first successful update.) -/
theorem c3_timestamps (s : St) (hs : Reachable s) :
    (∀ g ∈ s.genres, ∀ u, g.updatedAt = some u → g.createdAt ≤ u) ∧
    (∀ op now, s.clock ≤ now → ∀ g2 ∈ (applyOp op now s).genres,
      ∀ g1 ∈ s.genres, g2.id = g1.id → g2.createdAt = g1.createdAt) ∧
    (∀ body now r s2, createGenre body now s = (Except.ok r, s2) →
      r.updatedAt = some now) := by
  obtain ⟨h1, h2, h3, h4, h5⟩ := reachable_inv hs
  have hinj : ∀ a ∈ s.genres, ∀ b ∈ s.genres, a.id = b.id → a = b :=
    fun a ha b hb hab => List.inj_on_of_nodup_map h5 ha hb hab
  refine ⟨h4, ?_, ?_⟩
  · intro op now _ g2 hg2 g1 hg1 hid12
    have hmem :
        ∀ t : St, t.genres.Sublist s.genres →
          g2 ∈ t.genres → g2.createdAt = g1.createdAt := by
      intro t hsub hmem
      exact congrArg Genre.createdAt (hinj g2 (hsub.subset hmem) g1 hg1 hid12)
    cases op with
    | create body =>
      rcases createGenre_cases body now s with
        hcase | ⟨gNew, -, hg, -, -, hid, -, -⟩
      · have hgen : (applyOp (Op.create body) now s).genres = s.genres := by
          simp [applyOp, hcase]
        rw [hgen] at hg2
        exact congrArg Genre.createdAt (hinj g2 hg2 g1 hg1 hid12)
      · have hgen : (applyOp (Op.create body) now s).genres =
            s.genres ++ [gNew] := by
          simp [applyOp, hg]
        rw [hgen] at hg2
        rcases List.mem_append.mp hg2 with hm | hm
        · exact congrArg Genre.createdAt (hinj g2 hm g1 hg1 hid12)
        · simp only [List.mem_singleton] at hm
          subst hm
          exfalso
          have hlt := h2 g1.id (h1 g1 hg1)
          rw [← hid12, hid] at hlt
          exact lt_irrefl _ hlt
    | put idStr body =>
      rcases putGenre_cases idStr body now s with
        hcase | ⟨old, upd, hf, -, hg, -, -, hidu, hca, -⟩
      · have hgen : (applyOp (Op.put idStr body) now s).genres = s.genres := by
          simp [applyOp, hcase]
        rw [hgen] at hg2
        exact congrArg Genre.createdAt (hinj g2 hg2 g1 hg1 hid12)
      · have hold : old ∈ s.genres := List.mem_of_find?_eq_some hf
        obtain ⟨l1, l2, hl, hu, -, -⟩ :=
          updateFirst_of_find (f := fun _ => upd) hf
        have hgen : (applyOp (Op.put idStr body) now s).genres =
            l1 ++ upd :: l2 := by
          simp [applyOp, hg, hu]
        rw [hgen] at hg2
        rcases List.mem_append.mp hg2 with hm | hm
        · exact congrArg Genre.createdAt
            (hinj g2 (by rw [hl]; exact List.mem_append.mpr (Or.inl hm))
              g1 hg1 hid12)
        · rcases List.mem_cons.mp hm with hm2 | hm2
          · subst hm2
            have hg1old : g1 = old := by
              refine hinj g1 hg1 old hold ?_
              rw [← hid12, hidu]
            rw [hca, hg1old]
          · exact congrArg Genre.createdAt
              (hinj g2
                (by rw [hl]
                    exact List.mem_append.mpr
                      (Or.inr (List.mem_cons_of_mem _ hm2)))
                g1 hg1 hid12)
    | patch idStr body =>
      rcases patchGenre_cases idStr body now s with
        ⟨hcase, -⟩ | ⟨old, upd, hf, -, hg, -, -, hidu, -, -, -, hca, -⟩
      · have hgen : (applyOp (Op.patch idStr body) now s).genres =
            s.genres := by
          simp [applyOp, hcase]
        rw [hgen] at hg2
        exact congrArg Genre.createdAt (hinj g2 hg2 g1 hg1 hid12)
      · have hold : old ∈ s.genres := List.mem_of_find?_eq_some hf
        obtain ⟨l1, l2, hl, hu, -, -⟩ :=
          updateFirst_of_find (f := fun _ => upd) hf
        have hgen : (applyOp (Op.patch idStr body) now s).genres =
            l1 ++ upd :: l2 := by
          simp [applyOp, hg, hu]
        rw [hgen] at hg2
        rcases List.mem_append.mp hg2 with hm | hm
        · exact congrArg Genre.createdAt
            (hinj g2 (by rw [hl]; exact List.mem_append.mpr (Or.inl hm))
              g1 hg1 hid12)
        · rcases List.mem_cons.mp hm with hm2 | hm2
          · subst hm2
            have hg1old : g1 = old := by
              refine hinj g1 hg1 old hold ?_
              rw [← hid12, hidu]
            rw [hca, hg1old]
          · exact congrArg Genre.createdAt
              (hinj g2
                (by rw [hl]
                    exact List.mem_append.mpr
                      (Or.inr (List.mem_cons_of_mem _ hm2)))
                g1 hg1 hid12)
    | deleteOne idStr =>
      rcases deleteGenre_cases idStr s with hcase | ⟨hsub, -, -⟩
      · have hgen : (applyOp (Op.deleteOne idStr) now s).genres =
            s.genres := by
          simp [applyOp, hcase]
        rw [hgen] at hg2
        exact congrArg Genre.createdAt (hinj g2 hg2 g1 hg1 hid12)
      · have hgen : (applyOp (Op.deleteOne idStr) now s).genres =
            (deleteGenre idStr s).2.genres := by
          simp [applyOp]
        rw [hgen] at hg2
        exact hmem (deleteGenre idStr s).2 hsub hg2
    | bulkDelete ids =>
      obtain ⟨hsub, -, -⟩ := bulkDeleteGenres_snd ids s
      have hgen : (applyOp (Op.bulkDelete ids) now s).genres =
          (bulkDeleteGenres ids s).2.genres := by
        simp [applyOp]
      rw [hgen] at hg2
      exact hmem (bulkDeleteGenres ids s).2 hsub hg2
  · intro body now r s2 h
    rw [(createGenre_ok_shape h).1]

theorem c3_timestamps_witness :
    (∀ g ∈ (initSt 0).genres, ∀ u, g.updatedAt = some u →
      g.createdAt ≤ u) ∧
    (∀ op now, (initSt 0).clock ≤ now →
      ∀ g2 ∈ (applyOp op now (initSt 0)).genres,
        ∀ g1 ∈ (initSt 0).genres, g2.id = g1.id →
          g2.createdAt = g1.createdAt) ∧
    (∀ body now r s2, createGenre body now (initSt 0) = (Except.ok r, s2) →
      r.updatedAt = some now) :=
  c3_timestamps (initSt 0) (Reachable.init 0)

/-- C4: a create or replace whose trimmed name is shorter than 2 and
whose trimmed description is shorter than 5 fails with a
`ValidationError` listing both violations (name first, description
second), and the store is unchanged. -/
theorem c4_validation_lists_both (name desc : String) (img : Option String)
    (now : Nat) (st : St) (idStr : String) (old : Genre)
    (h1 : (jsTrim name).length < 2) (h2 : (jsTrim desc).length < 5)
    (hfound : findGenreById idStr st.genres = some old) :
    validateGenre name desc =
      ["Name must be at least 2 characters long",
        "Description must be at least 5 characters long"] ∧
    createGenre ⟨name, desc, img⟩ now st =
      (Except.error (CrudErr.validation
        ["Name must be at least 2 characters long",
          "Description must be at least 5 characters long"]), st) ∧
    putGenre idStr ⟨name, desc, img⟩ now st =
      (Except.error (CrudErr.validation
        ["Name must be at least 2 characters long",
          "Description must be at least 5 characters long"]), st) := by
  have hv : validateGenre name desc =
      ["Name must be at least 2 characters long",
        "Description must be at least 5 characters long"] := by
    simp [validateGenre, h1, h2]
  refine ⟨hv, ?_, ?_⟩
  · simp [createGenre, hv]
  · simp [putGenre, hfound, hv]

theorem c4_validation_lists_both_witness :
    (jsTrim "x").length < 2 ∧ (jsTrim "ab").length < 5 ∧
    findGenreById "1" (initSt 0).genres =
      some (Genre.mk 1 "Action" "Fast-paced, stunt-heavy films"
        "/images/action.jpg" 0 none) ∧
    (validateGenre "x" "ab" =
      ["Name must be at least 2 characters long",
        "Description must be at least 5 characters long"] ∧
    createGenre ⟨"x", "ab", none⟩ 9 (initSt 0) =
      (Except.error (CrudErr.validation
        ["Name must be at least 2 characters long",
          "Description must be at least 5 characters long"]), initSt 0) ∧
    putGenre "1" ⟨"x", "ab", none⟩ 9 (initSt 0) =
      (Except.error (CrudErr.validation
        ["Name must be at least 2 characters long",
          "Description must be at least 5 characters long"]), initSt 0)) :=
  ⟨by decide, by decide, by decide,
    c4_validation_lists_both "x" "ab" none 9 (initSt 0) "1"
      (Genre.mk 1 "Action" "Fast-paced, stunt-heavy films"
        "/images/action.jpg" 0 none)
      (by decide) (by decide) (by decide)⟩

/-- C5 counterexample: creating "Action" (a duplicate of a seed name)
with the invalid description "abc" fails with a `ValidationError`, not
with `ConflictError`: validation runs before the duplicate check, so the
claimed "always ConflictError regardless of description" is false. -/
theorem c5_counterexample_validation_first :
    ((initSt 0).genres.any
      (fun g => jsToLower g.name = jsToLower (jsTrim "Action"))) = true ∧
    (createGenre ⟨"Action", "abc", none⟩ 5 (initSt 0)).1 =
      Except.error (CrudErr.validation
        ["Description must be at least 5 characters long"]) ∧
    (createGenre ⟨"Action", "abc", none⟩ 5 (initSt 0)).1 ≠
      Except.error CrudErr.conflict :=
  ⟨by decide, by decide, by decide⟩

/-- C5 (amended): a create whose trimmed name case-insensitively equals
an existing genre's name never changes the store and never succeeds: it
fails with `ConflictError` whenever name and description pass
validation, and with `ValidationError` (listing the violations)
otherwise, whatever the image value is. -/
theorem c5_duplicate_name_rejected (name desc : String) (img : Option String)
    (now : Nat) (st : St)
    (hdup : st.genres.any
      (fun g => jsToLower g.name = jsToLower (jsTrim name)) = true) :
    (createGenre ⟨name, desc, img⟩ now st).2 = st ∧
    (validateGenre name desc = [] →
      (createGenre ⟨name, desc, img⟩ now st).1 =
        Except.error CrudErr.conflict) ∧
    (validateGenre name desc ≠ [] →
      (createGenre ⟨name, desc, img⟩ now st).1 =
        Except.error (CrudErr.validation (validateGenre name desc))) := by
  by_cases hv : validateGenre name desc = []
  · refine ⟨?_, ?_, ?_⟩ <;> simp [createGenre, hv, hdup]
  · refine ⟨?_, ?_, ?_⟩ <;> simp [createGenre, hv]

theorem c5_duplicate_name_rejected_witness :
    ((initSt 0).genres.any
      (fun g => jsToLower g.name = jsToLower (jsTrim "aCtIoN"))) = true ∧
    ((createGenre ⟨"aCtIoN", "Loud stunts", none⟩ 6 (initSt 0)).2 =
        initSt 0 ∧
      (validateGenre "aCtIoN" "Loud stunts" = [] →
        (createGenre ⟨"aCtIoN", "Loud stunts", none⟩ 6 (initSt 0)).1 =
          Except.error CrudErr.conflict) ∧
      (validateGenre "aCtIoN" "Loud stunts" ≠ [] →
        (createGenre ⟨"aCtIoN", "Loud stunts", none⟩ 6 (initSt 0)).1 =
          Except.error (CrudErr.validation
            (validateGenre "aCtIoN" "Loud stunts")))) :=
  ⟨by decide,
    c5_duplicate_name_rejected "aCtIoN" "Loud stunts" none 6 (initSt 0)
      (by decide)⟩

/-- C7: a successful patch whose body carries only a description leaves
the record's name, image, and `createdAt` unchanged and stamps
`updatedAt` with the request time. -/
theorem c7_patch_description_frame (idStr d : String) (now : Nat) (st : St)
    (r : Genre) (st2 : St)
    (h : patchGenre idStr ⟨none, some d, none⟩ now st = (Except.ok r, st2)) :
    ∃ old, findGenreById idStr st.genres = some old ∧
      r.name = old.name ∧ r.image = old.image ∧
      r.createdAt = old.createdAt ∧ r.updatedAt = some now := by
  rcases patchGenre_cases idStr ⟨none, some d, none⟩ now st with
    ⟨-, e, he⟩ | ⟨old, upd, hf, hok, -, -, -, -, hname, -, himg, hca, hua⟩
  · rw [h] at he
    simp at he
  · have hr : upd = r := by
      rw [h] at hok
      exact (Except.ok.inj hok).symm
    subst hr
    exact ⟨old, hf, by simpa using hname, by simpa using himg, hca, hua⟩

theorem c7_patch_description_frame_witness :
    patchGenre "1" ⟨none, some "Epic fights", none⟩ 7 (initSt 0) =
      (Except.ok (Genre.mk 1 "Action" "Epic fights" "/images/action.jpg"
        0 (some 7)),
       St.mk [Genre.mk 1 "Action" "Epic fights" "/images/action.jpg"
            0 (some 7),
          Genre.mk 2 "Comedy" "Funny films to make you laugh"
            "/images/comedy.jpg" 0 none,
          Genre.mk 3 "Drama" "Emotion-driven storytelling"
            "/images/drama.jpg" 0 none,
          Genre.mk 4 "Sci-Fi" "Futuristic concepts and tech"
            "/images/scifi.jpg" 0 none] 5 0 [1, 2, 3, 4]) ∧
    (∃ old, findGenreById "1" (initSt 0).genres = some old ∧
      (Genre.mk 1 "Action" "Epic fights" "/images/action.jpg" 0
        (some 7)).name = old.name ∧
      (Genre.mk 1 "Action" "Epic fights" "/images/action.jpg" 0
        (some 7)).image = old.image ∧
      (Genre.mk 1 "Action" "Epic fights" "/images/action.jpg" 0
        (some 7)).createdAt = old.createdAt ∧
      (Genre.mk 1 "Action" "Epic fights" "/images/action.jpg" 0
        (some 7)).updatedAt = some 7) :=
  ⟨by decide,
    c7_patch_description_frame "1" "Epic fights" 7 (initSt 0)
      (Genre.mk 1 "Action" "Epic fights" "/images/action.jpg" 0 (some 7))
      (St.mk [Genre.mk 1 "Action" "Epic fights" "/images/action.jpg"
            0 (some 7),
          Genre.mk 2 "Comedy" "Funny films to make you laugh"
            "/images/comedy.jpg" 0 none,
          Genre.mk 3 "Drama" "Emotion-driven storytelling"
            "/images/drama.jpg" 0 none,
          Genre.mk 4 "Sci-Fi" "Futuristic concepts and tech"
            "/images/scifi.jpg" 0 none] 5 0 [1, 2, 3, 4])
      (by decide)⟩

/-- C8: listing the seed collection with `sort=name`, `order=desc`
returns the records in the order Sci-Fi, Drama, Comedy, Action. -/
theorem c8_sort_name_desc (t0 : Nat) :
    listGenres none (some "name") "desc" (seedGenres t0) =
      [Genre.mk 4 "Sci-Fi" "Futuristic concepts and tech"
          "/images/scifi.jpg" t0 none,
        Genre.mk 3 "Drama" "Emotion-driven storytelling"
          "/images/drama.jpg" t0 none,
        Genre.mk 2 "Comedy" "Funny films to make you laugh"
          "/images/comedy.jpg" t0 none,
        Genre.mk 1 "Action" "Fast-paced, stunt-heavy films"
          "/images/action.jpg" t0 none] := by
  rfl

/-- C9: a create whose image field is present but the empty string gets
the default image path `/images/<lowercased name, whitespace removed>.jpg`
— the result is identical to omitting the field, because the code tests
the field by truthiness. -/
theorem c9_empty_image_defaults (name desc : String) (now : Nat) (st : St)
    (hval : validateGenre name desc = [])
    (hdup : st.genres.any
      (fun g => jsToLower g.name = jsToLower (jsTrim name)) = false) :
    (∃ r st2, createGenre ⟨name, desc, some ""⟩ now st =
        (Except.ok r, st2) ∧
      r.image = "/images/" ++ lowerNoWs name ++ ".jpg") ∧
    createGenre ⟨name, desc, some ""⟩ now st =
      createGenre ⟨name, desc, none⟩ now st := by
  have hres : createGenre ⟨name, desc, some ""⟩ now st =
      (Except.ok (Genre.mk st.nextId (jsTrim name) (jsTrim desc)
        (jsOrDefault (some "") (defaultImage name)) now (some now)),
       St.mk (st.genres ++ [Genre.mk st.nextId (jsTrim name) (jsTrim desc)
          (jsOrDefault (some "") (defaultImage name)) now (some now)])
        (st.nextId + 1) st.clock (st.assigned ++ [st.nextId])) := by
    simp [createGenre, hval, hdup]
  constructor
  · exact ⟨_, _, hres, rfl⟩
  · simp [createGenre, jsOrDefault]

theorem c9_empty_image_defaults_witness :
    validateGenre "Film Noir" "Dark moody crime films" = [] ∧
    (initSt 0).genres.any
      (fun g => jsToLower g.name = jsToLower (jsTrim "Film Noir")) = false ∧
    ((∃ r st2, createGenre ⟨"Film Noir", "Dark moody crime films", some ""⟩
        8 (initSt 0) = (Except.ok r, st2) ∧
      r.image = "/images/" ++ lowerNoWs "Film Noir" ++ ".jpg") ∧
    createGenre ⟨"Film Noir", "Dark moody crime films", some ""⟩ 8
        (initSt 0) =
      createGenre ⟨"Film Noir", "Dark moody crime films", none⟩ 8
        (initSt 0)) :=
  ⟨by decide, by decide,
    c9_empty_image_defaults "Film Noir" "Dark moody crime films" 8
      (initSt 0) (by decide) (by decide)⟩

/-- C10: the single-genre lookup resolves its id string through
`parseInt`: the result is exactly the first genre whose id equals the
parsed integer, a trailing-garbage string such as "5abc" addresses id 5,
and a string parsing to NaN yields `NotFound`. -/
theorem c10_get_by_parseInt :
    (∀ st idStr, getGenre idStr st =
      (match jsParseInt idStr with
      | some n =>
        (match st.genres.find? (fun g => g.id = n) with
        | some g => Except.ok g
        | none => Except.error CrudErr.notFound)
      | none => Except.error CrudErr.notFound)) ∧
    jsParseInt "5abc" = some 5 ∧ jsParseInt "abc" = none ∧
    getGenre "5abc" (St.mk (seedGenres 0 ++
        [Genre.mk 5 "Horror" "Scary stuff" "/images/horror.jpg" 5 (some 5)])
      6 0 [1, 2, 3, 4, 5]) =
      Except.ok (Genre.mk 5 "Horror" "Scary stuff" "/images/horror.jpg" 5
        (some 5)) ∧
    getGenre "abc" (initSt 0) = Except.error CrudErr.notFound := by
  refine ⟨?_, by decide, by decide, by decide, by decide⟩
  intro st idStr
  unfold getGenre findGenreById
  cases hp : jsParseInt idStr with
  | none =>
    have hnone : st.genres.find?
        (fun g => (none : Option Int) = some g.id) = none := by
      rw [List.find?_eq_none]
      intro g _
      simp
    rw [hnone]
  | some n =>
    have hsame : st.genres.find? (fun g => (some n : Option Int) = some g.id)
        = st.genres.find? (fun g => g.id = n) := by
      congr 1
      funext g
      simp [eq_comm]
    rw [hsame]
    cases hfind : st.genres.find? (fun g => g.id = n) with
    | none => simp [hfind]
    | some g => simp [hfind]

/-- C1 counterexample: (a) patching genre 1 with a name of blanks — a
present name whose trimmed value is empty, so the claimed combined
record violates the name rule — succeeds and writes the empty name
instead of failing with a `ValidationError`, because validation is
gated on truthiness of the trimmed update; (b) patching genre 1 with
the valid name "Comedy" satisfies the claimed combined-record rules yet
fails with `ConflictError` rather than succeeding. -/
theorem c1_counterexample_patch_validation :
    (patchGenre "1" ⟨some " ", none, none⟩ 7 (initSt 0)).1 =
      Except.ok (Genre.mk 1 "" "Fast-paced, stunt-heavy films"
        "/images/action.jpg" 0 (some 7)) ∧
    validateGenre (jsTrim " ") "Fast-paced, stunt-heavy films" ≠ [] ∧
    (patchGenre "1" ⟨some "Comedy", none, none⟩ 7 (initSt 0)).1 =
      Except.error CrudErr.conflict ∧
    validateGenre (jsTrim "Comedy") "Fast-paced, stunt-heavy films" = [] :=
  ⟨by decide, by decide, by decide, by decide⟩

/-- C1 (amended): for a patch on an existing id, the operation fails
with a `ValidationError` exactly when some patched name or description
trims to a non-empty string and the combined record — patched trimmed
values where non-empty, the existing values otherwise — violates the
rules (name at least 2 trimmed characters, description at least 5); when
that does not hold and the duplicate-name check does not fire, the merge
succeeds and writes the trimmed patched fields, including ones that
trimmed to the empty string. -/
theorem c1_patch_validation_characterized (idStr : String)
    (body : PatchBody) (now : Nat) (st : St) (old : Genre)
    (hfound : findGenreById idStr st.genres = some old) :
    ((∃ errs, (patchGenre idStr body now st).1 =
        Except.error (CrudErr.validation errs)) ↔
      ((jsTruthy (body.name.map jsTrim) ||
          jsTruthy (body.description.map jsTrim)) = true ∧
        validateGenre (jsOrDefault (body.name.map jsTrim) old.name)
          (jsOrDefault (body.description.map jsTrim) old.description)
            ≠ [])) ∧
    (¬((jsTruthy (body.name.map jsTrim) ||
          jsTruthy (body.description.map jsTrim)) = true ∧
        validateGenre (jsOrDefault (body.name.map jsTrim) old.name)
          (jsOrDefault (body.description.map jsTrim) old.description)
            ≠ []) →
      (jsTruthy (body.name.map jsTrim) &&
        st.genres.any (fun g => g.id ≠ old.id &&
          jsToLower g.name =
            jsToLower ((body.name.map jsTrim).getD ""))) = false →
      (patchGenre idStr body now st).1 =
        Except.ok (Genre.mk old.id ((body.name.map jsTrim).getD old.name)
          ((body.description.map jsTrim).getD old.description)
          (body.image.getD old.image) old.createdAt (some now))) := by
  simp only [patchGenre, hfound]
  split_ifs with hT h1 h2 h3
  · constructor
    · exact ⟨fun _ => ⟨hT, h1⟩, fun _ => ⟨_, rfl⟩⟩
    · intro hnot _
      exact absurd ⟨hT, h1⟩ hnot
  · constructor
    · constructor
      · rintro ⟨errs, herrs⟩
        simp at herrs
      · rintro ⟨-, hne⟩
        exact absurd hne h1
    · intro _ hconf
      rw [hconf] at h2
      simp at h2
  · constructor
    · constructor
      · rintro ⟨errs, herrs⟩
        simp at herrs
      · rintro ⟨-, hne⟩
        exact absurd hne h1
    · intro _ _
      rfl
  · exfalso
    have hTf : jsTruthy (body.name.map jsTrim) = false := by
      rcases Bool.or_eq_false_iff.mp
        ((Bool.not_eq_true _).mp hT) with ⟨ha, -⟩
      exact ha
    rw [hTf] at h3
    simp at h3
  · constructor
    · constructor
      · rintro ⟨errs, herrs⟩
        simp at herrs
      · rintro ⟨htr, -⟩
        exact absurd htr hT
    · intro _ _
      rfl

theorem c1_patch_validation_characterized_witness :
    findGenreById "1" (initSt 0).genres =
      some (Genre.mk 1 "Action" "Fast-paced, stunt-heavy films"
        "/images/action.jpg" 0 none) ∧
    (((∃ errs, (patchGenre "1" ⟨some " ", none, none⟩ 7 (initSt 0)).1 =
        Except.error (CrudErr.validation errs)) ↔
      ((jsTruthy ((some " ").map jsTrim) ||
          jsTruthy ((none : Option String).map jsTrim)) = true ∧
        validateGenre (jsOrDefault ((some " ").map jsTrim) "Action")
          (jsOrDefault ((none : Option String).map jsTrim)
            "Fast-paced, stunt-heavy films") ≠ [])) ∧
    (¬((jsTruthy ((some " ").map jsTrim) ||
          jsTruthy ((none : Option String).map jsTrim)) = true ∧
        validateGenre (jsOrDefault ((some " ").map jsTrim) "Action")
          (jsOrDefault ((none : Option String).map jsTrim)
            "Fast-paced, stunt-heavy films") ≠ []) →
      (jsTruthy ((some " ").map jsTrim) &&
        (initSt 0).genres.any (fun g => g.id ≠ (1 : Int) &&
          jsToLower g.name =
            jsToLower (((some " ").map jsTrim).getD ""))) = false →
      (patchGenre "1" ⟨some " ", none, none⟩ 7 (initSt 0)).1 =
        Except.ok (Genre.mk 1 (((some " ").map jsTrim).getD "Action")
          (((none : Option String).map jsTrim).getD
            "Fast-paced, stunt-heavy films")
          ((none : Option String).getD "/images/action.jpg") 0 (some 7)))) :=
  ⟨by decide,
    c1_patch_validation_characterized "1" ⟨some " ", none, none⟩ 7 (initSt 0)
      (Genre.mk 1 "Action" "Fast-paced, stunt-heavy films"
        "/images/action.jpg" 0 none) (by decide)⟩
